import Mathlib

/-!
Shallow embedding of the domain and storage core of the
adex-validator-stack-rust repository (crates `domain`, `memory-repository`,
`adapter`, `sentry`), together with proofs settling the frozen claims about
its specification.

Modelling conventions:
* `BigNum` wraps `num_bigint::BigUint`, an arbitrary-precision non-negative
  integer; it is embedded as `Nat`.
* Rust strings are byte sequences (`&str` is UTF-8; all the strings the code
  manipulates here are ASCII); they are embedded as `List Nat` of byte values
  where the identifier codec is concerned, and as `String` elsewhere.
* Operations of `num_bigint` that panic (division by zero, subtraction
  underflow) are embedded with an explicit outcome type `PanicOr`:
  a Rust panic aborts the computation and produces no value, which is
  distinct from returning a typed error value.
* u64/u32 machine arithmetic is embedded as `Nat` with explicit wrapping
  (`% 2^64`) where the source performs machine subtraction/multiplication
  (release-profile two's-complement wrapping semantics; in a debug profile
  the same overflow panics, which equally produces no in-range result).
* The in-memory repository guards its record vector with an `RwLock`; in this
  sequential embedding lock acquisition always succeeds (no poisoning without
  a panic inside a critical section), and mutation is explicit state passing:
  `add` returns the updated repository, `list` returns the repository
  unchanged (the source takes `&self`, a shared reference).
-/

/-- Outcome of a Rust computation that can panic: a panic aborts and produces
no value of the output type. `num_bigint::BigUint` panics on division by zero
and on subtraction underflow. -/
inductive PanicOr (α : Type) where
  | panicked : PanicOr α
  | value : α → PanicOr α
deriving DecidableEq

/-- `impl Sub<&BigNum> for &BigNum` delegates to `BigUint` subtraction
(`&self.0 - &rhs.0`), which panics when the result would be negative:
`BigNum` has no negative representation. (src/domain/src/big_num.rs:101-108) -/
def bigNumSub (a b : Nat) : PanicOr Nat :=
  if a < b then .panicked else .value (a - b)

/-- `impl Div<&BigNum> for &BigNum` delegates to `BigUint` division
(`&self.0 / &rhs.0`): truncating division, which on non-negative values is
floor division; it panics when the divisor is zero.
(src/domain/src/big_num.rs:110-126) -/
def bigNumDiv (a b : Nat) : PanicOr Nat :=
  if b = 0 then .panicked else .value (a / b)

/-- `Integer::div_floor` for `BigNum` delegates to `BigUint::div_floor`,
which panics when the divisor is zero. (src/domain/src/big_num.rs:47-49) -/
def bigNumDivFloor (a b : Nat) : PanicOr Nat :=
  if b = 0 then .panicked else .value (a / b)

/-- `Integer::mod_floor` for `BigNum` delegates to `BigUint::mod_floor`,
which panics when the divisor is zero. (src/domain/src/big_num.rs:51-53) -/
def bigNumModFloor (a b : Nat) : PanicOr Nat :=
  if b = 0 then .panicked else .value (a % b)

/-- `num::rational::Ratio<BigNum>`: a numerator/denominator pair of
`BigNum`s, with accessors `numer()` and `denom()`. -/
structure RatBigNum where
  numer : Nat
  denom : Nat
deriving DecidableEq

/-- `impl Mul<&Ratio<BigNum>> for &BigNum`:
`(self * rhs.numer()) / rhs.denom()` — the multiplication is performed
first, then the (panicking-on-zero) `BigNum` division.
(src/domain/src/big_num.rs:154-170) -/
def bigNumMulRat (a : Nat) (r : RatBigNum) : PanicOr Nat :=
  bigNumDiv (a * r.numer) r.denom

/-- `DomainError` (crate `domain`): the `InvalidArgument(String)` variant is
the one raised by the constructors embedded here. -/
inductive DomainError where
  | invalidArgument : String → DomainError
deriving DecidableEq

/-- Value of one hex digit byte, per the `hex` crate: accepts `0-9`, `a-f`,
`A-F` (byte values 48-57, 97-102, 65-70); any other byte is an invalid hex
character. -/
def hexVal (b : Nat) : Option Nat :=
  if 48 ≤ b ∧ b ≤ 57 then some (b - 48)
  else if 97 ≤ b ∧ b ≤ 102 then some (b - 97 + 10)
  else if 65 ≤ b ∧ b ≤ 70 then some (b - 65 + 10)
  else none

/-- Lowercase hex digit byte for a value `v < 16`, as produced by
`hex::ToHex::write_hex` (always lowercase). -/
def hexDigit (v : Nat) : Nat :=
  if v < 10 then 48 + v else 87 + v

/-- ASCII lowercasing of one byte (uppercase letters 65-90 map to 97-122;
everything else is unchanged). -/
def toLowerB (b : Nat) : Nat :=
  if 65 ≤ b ∧ b ≤ 90 then b + 32 else b

/-- `hex::FromHex for Vec<u8>`: decode a byte string of hex digits two at a
time; fails (`none`) on an odd number of digits or on any invalid hex
character. -/
def hexDecode : List Nat → Option (List Nat)
  | [] => some []
  | [_] => none
  | hi :: lo :: rest =>
    match hexVal hi, hexVal lo, hexDecode rest with
    | some x, some y, some tail => some ((x * 16 + y) :: tail)
    | _, _, _ => none

/-- `hex::ToHex::write_hex`: lowercase hex encoding, two digit bytes per
input byte. -/
def hexEncode : List Nat → List Nat
  | [] => []
  | byte :: rest => hexDigit (byte / 16) :: hexDigit (byte % 16) :: hexEncode rest

/-- `str::trim_start_matches("0x")`: repeatedly removes the byte pair
`0x30 0x78` (`"0x"`) from the front as long as it matches — it strips every
leading occurrence, not just the first. (src/domain/src/channel.rs:87) -/
def trimStartMatches0x : List Nat → List Nat
  | a :: b :: rest =>
    if a = 48 ∧ b = 120 then trimStartMatches0x rest else a :: b :: rest
  | s => s

/-- `ChannelId::try_from_hex` (src/domain/src/channel.rs:86-98): strip the
leading `"0x"` occurrences with `trim_start_matches`, hex-decode the
remainder (mapping the hex error to `DomainError::InvalidArgument` carrying
the hex error's message, abbreviated here), and require exactly 32 decoded
bytes. -/
def tryFromHex (hex : List Nat) : Except DomainError (List Nat) :=
  let s := trimStartMatches0x hex
  match hexDecode s with
  | none => .error (DomainError.invalidArgument "invalid hex string")
  | some bytes =>
    if bytes.length = 32 then .ok bytes
    else .error (DomainError.invalidArgument
      "The value of the id should have exactly 32 bytes")

/-- `ChannelId::to_string` (src/domain/src/channel.rs:32-40): `"0x"`
(bytes 48, 120) followed by the lowercase hex encoding of the id bytes. -/
def channelIdToString (id : List Nat) : List Nat :=
  48 :: 120 :: hexEncode id

/-- `ValidatorDesc` (src/sentry/src/domain/validator.rs): a validator's
public identity, endpoint url, and fee (a `BigNum`, embedded as `Nat`). -/
structure ValidatorDesc where
  id : String
  url : String
  fee : Nat

/-- Modelled from the spec: `SpecValidators` — the provided sources store the
pair only as `validators: Vec<ValidatorDesc>` in `ChannelSpec`
(src/domain/src/channel.rs:124-125, with a TODO to turn it into a custom
(leader, follower) two-element type); the spec fixes it to exactly two
`ValidatorDesc` in fixed order, index 0 the leader and index 1 the
follower. -/
structure SpecValidators where
  leader : ValidatorDesc
  follower : ValidatorDesc

/-- Modelled from the spec: the discriminated result of
`SpecValidators::find`, one of Leader or Follower (wrapped in `Option` for
the None case). -/
inductive ValidatorFound where
  | leader : ValidatorFound
  | follower : ValidatorFound
deriving DecidableEq

/-- Modelled from the spec: `SpecValidators::find(id)` is absent from the
provided sources; per the spec it performs an ordered, discriminated lookup —
it compares `id` to the leader's id first, then to the follower's id, and
returns exactly one of Leader, Follower, or None (leader wins when both share
an id). -/
def SpecValidators.find (vs : SpecValidators) (id : String) : Option ValidatorFound :=
  if vs.leader.id = id then some .leader
  else if vs.follower.id = id then some .follower
  else none

/-- `ChannelListParams` (src/domain/src/channel.rs:158-169): pagination and
filter parameters for listing channels. The source also carries a private
`_secret: ()` field whose only purpose is to force construction through
`new`; it has no runtime content and is omitted. Timestamps are embedded as
`Int`. -/
structure ChannelListParams where
  page : Nat
  limit : Nat
  validUntilGe : Int
  validator : Option String
deriving DecidableEq

/-- `ChannelListParams::new` (src/domain/src/channel.rs:171-195): rejects
`page < 1`, then `limit < 1`, with `DomainError::InvalidArgument`; an empty
validator filter string is normalized to `None` via
`validator.and_then(|s| ...)`. -/
def ChannelListParams.new (validUntilGe : Int) (limit : Nat) (page : Nat)
    (validator : Option String) : Except DomainError ChannelListParams :=
  if page < 1 then
    .error (DomainError.invalidArgument "Page should be >= 1")
  else if limit < 1 then
    .error (DomainError.invalidArgument "Limit should be >= 1")
  else
    .ok { page := page, limit := limit, validUntilGe := validUntilGe,
          validator := validator.bind fun s => if s.isEmpty then none else some s }

/-- `MemoryRepositoryError` (src/memory-repository/src/lib.rs:102-107). -/
inductive MemoryRepositoryError where
  | reading : MemoryRepositoryError
  | writing : MemoryRepositoryError
  | alreadyExists : MemoryRepositoryError
deriving DecidableEq

/-- `MemoryRepository<S, V>` (src/memory-repository/src/lib.rs:10-13): a
record vector guarded by an `RwLock` plus a caller-supplied comparison
`cmp(record, value) -> bool`. In this sequential embedding the lock always
succeeds, so the state is just the record list and the comparison
function. -/
structure MemoryRepository (S V : Type) where
  records : List S
  cmp : S → V → Bool

/-- Wrap a `Nat` into the u64 range, as machine arithmetic on `u64` does. -/
def u64Wrap (n : Nat) : Nat := n % 2 ^ 64

/-- Wrapping u64 subtraction `a - b` for `a, b` in the u64 range (the
release-profile semantics of Rust's `-` on `u64`; a debug profile panics on
the same underflow, equally never producing the mathematical result). -/
def u64Sub (a b : Nat) : Nat := (a + 2 ^ 64 - b) % 2 ^ 64

/-- `skip_results` in `MemoryRepository::list`
(src/memory-repository/src/lib.rs:37): `((page - 1) * u64::from(limit)) as
usize`, computed in u64 machine arithmetic; the `as usize` cast is the
identity on a 64-bit target. -/
def skipResults (page limit : Nat) : Nat :=
  u64Wrap (u64Sub page 1 * limit)

/-- `MemoryRepository::has` (src/memory-repository/src/lib.rs:64-72): true
iff some stored record satisfies `cmp(record, cmp_value)`. -/
def MemoryRepository.has {S V : Type} (repo : MemoryRepository S V) (cmpValue : V) : Bool :=
  (repo.records.find? fun current => repo.cmp current cmpValue).isSome

/-- `MemoryRepository::find` (src/memory-repository/src/lib.rs:74-84): the
first matching record (a clone), or none. -/
def MemoryRepository.find {S V : Type} (repo : MemoryRepository S V) (cmpValue : V) : Option S :=
  repo.records.find? fun current => repo.cmp current cmpValue

/-- `MemoryRepository::add` (src/memory-repository/src/lib.rs:86-99): fails
with `AlreadyExists` when `has(cmp_value)` holds, leaving the store
untouched; otherwise pushes the record at the end. Explicit state passing:
the second component is the repository after the call. -/
def MemoryRepository.add {S V : Type} (repo : MemoryRepository S V) (cmpValue : V)
    (record : S) : Except MemoryRepositoryError Unit × MemoryRepository S V :=
  if repo.has cmpValue then
    (.error .alreadyExists, repo)
  else
    (.ok (), { repo with records := repo.records ++ [record] })

/-- `MemoryRepository::list` (src/memory-repository/src/lib.rs:32-52): apply
the transform filter to each record in insertion order (`filter_map`), skip
`skip_results`, take `limit`. The source takes `&self` (a shared reference):
the repository is returned unchanged. -/
def MemoryRepository.list {S V : Type} (repo : MemoryRepository S V) (limit : Nat)
    (page : Nat) (filter : S → Option S) : List S × MemoryRepository S V :=
  (((repo.records.filterMap filter).drop (skipResults page limit)).take limit, repo)

/-! ### Helper lemmas -/

theorem hexVal_digit_toLower (b v : Nat) (h : hexVal b = some v) :
    v < 16 ∧ hexDigit v = toLowerB b := by
  unfold hexVal at h
  split_ifs at h with h1 h2 h3 <;>
    (injection h with hv; subst hv; unfold hexDigit toLowerB; split_ifs <;> omega)

theorem hexDecode_encode : ∀ (h : List Nat), (∀ b ∈ h, (hexVal b).isSome) →
    h.length % 2 = 0 →
    ∃ bs, hexDecode h = some bs ∧ bs.length = h.length / 2 ∧
      hexEncode bs = h.map toLowerB
  | [], _, _ => ⟨[], rfl, rfl, rfl⟩
  | [a], _, heven => by
    simp only [List.length_cons, List.length_nil] at heven
    omega
  | hi :: lo :: rest, hhex, heven => by
    obtain ⟨x, hx⟩ := Option.isSome_iff_exists.mp (hhex hi (by simp))
    obtain ⟨y, hy⟩ := Option.isSome_iff_exists.mp (hhex lo (by simp))
    obtain ⟨bs, hdec, hlen, henc⟩ := hexDecode_encode rest
      (fun b hb => hhex b (by simp [hb]))
      (by simp only [List.length_cons] at heven; omega)
    obtain ⟨hx16, hxd⟩ := hexVal_digit_toLower hi x hx
    obtain ⟨hy16, hyd⟩ := hexVal_digit_toLower lo y hy
    refine ⟨(x * 16 + y) :: bs, ?_, ?_, ?_⟩
    · simp [hexDecode, hx, hy, hdec]
    · simp only [List.length_cons, hlen]; omega
    · have e1 : (x * 16 + y) / 16 = x := by omega
      have e2 : (x * 16 + y) % 16 = y := by omega
      simp [hexEncode, List.map, e1, e2, hxd, hyd, henc]

theorem trimStartMatches0x_of_hex (h : List Nat) (hhex : ∀ b ∈ h, (hexVal b).isSome) :
    trimStartMatches0x h = h := by
  match h with
  | [] => rfl
  | [a] => rfl
  | a :: b :: rest =>
    have hb := hhex b (by simp)
    have hnot : ¬(a = 48 ∧ b = 120) := by
      rintro ⟨ha, hb120⟩
      subst hb120
      exact absurd hb (by decide)
    simp [trimStartMatches0x, hnot]

theorem trimStartMatches0x_cons0x (h : List Nat) :
    trimStartMatches0x (48 :: 120 :: h) = trimStartMatches0x h := by
  simp [trimStartMatches0x]

/-! ### Claim theorems -/

/-- C1: for every Amount `a` and ratio `n/d` with `d ≠ 0`, `a * (n/d)`
computes `(a * n)` floor-divided by `d` — multiplication before division;
in particular 50 * (23/100) yields 11, not 0 (a divide-then-multiply
implementation would give `50 / 100 * 23 = 0`). -/
theorem bigNumMulRat_mul_then_div (a n d : Nat) (hd : d ≠ 0) :
    bigNumMulRat a ⟨n, d⟩ = .value (a * n / d) ∧
    bigNumMulRat 50 ⟨23, 100⟩ = .value 11 ∧
    bigNumMulRat 50 ⟨23, 100⟩ ≠ .value 0 ∧
    50 / 100 * 23 = 0 := by
  refine ⟨?_, by decide, by decide, by decide⟩
  simp [bigNumMulRat, bigNumDiv, hd]

/-- Witness for C1 at `a = 50`, `n = 23`, `d = 100`. -/
theorem bigNumMulRat_mul_then_div_witness :
    bigNumMulRat 50 ⟨23, 100⟩ = .value (50 * 23 / 100) :=
  (bigNumMulRat_mul_then_div 50 23 100 (by decide)).1

/-- C4 counterexample: floor-dividing (or floor-modulo-ing) the Amount 1 by
zero does not return a typed error value — the `BigUint` operation panics,
and the `Div`/`Integer` impls have no error channel in their signatures. -/
theorem bigNumDivFloor_zero_cex :
    bigNumDivFloor 1 0 = .panicked ∧ bigNumModFloor 1 0 = .panicked := by
  decide

/-- C4 (amended): Amount floor-division and floor-modulo by zero do not
succeed — no Amount value is produced — but the failure is a panic (abort),
not a returned typed error value: the operations return plain Amounts and
have no error channel. -/
theorem bigNumDivFloor_modFloor_zero_panic (a : Nat) :
    bigNumDivFloor a 0 = .panicked ∧ bigNumModFloor a 0 = .panicked ∧
    (∀ v, bigNumDivFloor a 0 ≠ .value v) ∧
    (∀ v, bigNumModFloor a 0 ≠ .value v) := by
  refine ⟨rfl, rfl, ?_, ?_⟩ <;> intro v h <;> simp [bigNumDivFloor, bigNumModFloor] at h

/-- Witness for C4 (amended) at `a = 7`. -/
theorem bigNumDivFloor_modFloor_zero_panic_witness :
    bigNumDivFloor 7 0 = .panicked ∧ bigNumModFloor 7 0 = .panicked :=
  ⟨(bigNumDivFloor_modFloor_zero_panic 7).1, (bigNumDivFloor_modFloor_zero_panic 7).2.1⟩

/-- C5: subtracting Amount `b` from Amount `a` with `b > a` fails on
underflow — the `BigUint` subtraction panics, so no Amount value is
produced (the type has no negative representation). -/
theorem bigNumSub_underflow (a b : Nat) (h : a < b) :
    bigNumSub a b = .panicked ∧ ∀ v, bigNumSub a b ≠ .value v := by
  constructor
  · simp [bigNumSub, h]
  · intro v hv
    simp [bigNumSub, h] at hv

/-- Witness for C5 at `a = 1`, `b = 2`. -/
theorem bigNumSub_underflow_witness :
    bigNumSub 1 2 = .panicked :=
  (bigNumSub_underflow 1 2 (by decide)).1

/-- C3: `SpecValidators.find` performs an ordered lookup — leader's id first,
then the follower's id — returning Leader for the leader's id (so the leader
wins even when both validators share an id), Follower for the follower's id,
and None for any third id. -/
theorem specValidators_find_ordered (vs : SpecValidators) (id : String) :
    vs.find vs.leader.id = some .leader ∧
    (vs.leader.id = id → vs.find id = some .leader) ∧
    (vs.leader.id ≠ id → vs.follower.id = id → vs.find id = some .follower) ∧
    (vs.leader.id ≠ id → vs.follower.id ≠ id → vs.find id = none) := by
  refine ⟨by simp [SpecValidators.find], fun h => by simp [SpecValidators.find, h],
    fun h1 h2 => by simp [SpecValidators.find, h1, h2],
    fun h1 h2 => by simp [SpecValidators.find, h1, h2]⟩

/-- Witness for C3 on the pair (leader "lead", follower "follow") at each of
the three id classes. -/
theorem specValidators_find_ordered_witness :
    (SpecValidators.mk ⟨"lead", "u1", 1⟩ ⟨"follow", "u2", 2⟩).find "lead" =
      some .leader ∧
    (SpecValidators.mk ⟨"lead", "u1", 1⟩ ⟨"follow", "u2", 2⟩).find "follow" =
      some .follower ∧
    (SpecValidators.mk ⟨"lead", "u1", 1⟩ ⟨"follow", "u2", 2⟩).find "other" =
      none :=
  ⟨(specValidators_find_ordered ⟨⟨"lead", "u1", 1⟩, ⟨"follow", "u2", 2⟩⟩ "lead").2.1 rfl,
   (specValidators_find_ordered ⟨⟨"lead", "u1", 1⟩, ⟨"follow", "u2", 2⟩⟩
      "follow").2.2.1 (by decide) rfl,
   (specValidators_find_ordered ⟨⟨"lead", "u1", 1⟩, ⟨"follow", "u2", 2⟩⟩
      "other").2.2.2 (by decide) (by decide)⟩

/-- C2: `add(k, r)` fails with `AlreadyExists` when `has(k)` currently holds
(leaving the store untouched — the duplicate is neither silently ignored nor
an overwrite), and otherwise appends `r` at the end of the stored sequence
and returns success. -/
theorem memoryRepository_add_unique (S V : Type) (repo : MemoryRepository S V)
    (k : V) (r : S) :
    (repo.has k = true → repo.add k r = (.error .alreadyExists, repo)) ∧
    (repo.has k = false →
      repo.add k r = (.ok (), ⟨repo.records ++ [r], repo.cmp⟩)) := by
  constructor
  · intro h
    simp [MemoryRepository.add, h]
  · intro h
    simp [MemoryRepository.add, h]

/-- Witness for C2 on the store `[1]` with equality as the uniqueness
predicate: adding under existing key 1 fails, adding under fresh key 2
appends at the end. -/
theorem memoryRepository_add_unique_witness :
    (MemoryRepository.mk [1] (fun a b => a == b) : MemoryRepository Nat Nat).add 1 5 =
      (.error .alreadyExists, ⟨[1], fun a b => a == b⟩) ∧
    (MemoryRepository.mk [1] (fun a b => a == b) : MemoryRepository Nat Nat).add 2 5 =
      (.ok (), ⟨[1, 5], fun a b => a == b⟩) :=
  ⟨(memoryRepository_add_unique Nat Nat ⟨[1], fun a b => a == b⟩ 1 5).1 rfl,
   (memoryRepository_add_unique Nat Nat ⟨[1], fun a b => a == b⟩ 2 5).2 rfl⟩

/-- C8: `ChannelListParams::new` fails with invalid-argument for `page = 0`
(whatever the limit) and for `limit = 0`, succeeds for `page = 1, limit = 1`
with any validator filter, and normalizes an empty validator filter string to
no filter. -/
theorem channelListParams_new_validation :
    (∀ t l v, ChannelListParams.new t l 0 v =
      .error (DomainError.invalidArgument "Page should be >= 1")) ∧
    (∀ t p v, (ChannelListParams.new t 0 p v).isOk = false) ∧
    (∀ t v, (ChannelListParams.new t 1 1 v).isOk = true) ∧
    (∀ t, ChannelListParams.new t 1 1 (some "") = .ok ⟨1, 1, t, none⟩) := by
  refine ⟨fun t l v => rfl, ?_, fun t v => rfl, fun t => rfl⟩
  intro t p v
  by_cases hp : p < 1 <;> simp [ChannelListParams.new, hp, Except.isOk, Except.toBool]

/-- C6: for every sequence of 64 hex-digit bytes `h`, with or without a
leading `"0x"`, `try_from_hex` succeeds with the same 32-byte id, and
`to_string` of that id is `"0x"` followed by the lowercase form of `h`. -/
theorem tryFromHex_roundtrip (h : List Nat) (hlen : h.length = 64)
    (hhex : ∀ b ∈ h, (hexVal b).isSome) :
    ∃ id, tryFromHex h = .ok id ∧ tryFromHex (48 :: 120 :: h) = .ok id ∧
      id.length = 32 ∧ channelIdToString id = 48 :: 120 :: h.map toLowerB := by
  obtain ⟨bs, hdec, hblen, henc⟩ := hexDecode_encode h hhex (by omega)
  have htrim := trimStartMatches0x_of_hex h hhex
  have hb32 : bs.length = 32 := by omega
  refine ⟨bs, ?_, ?_, hb32, ?_⟩
  · simp [tryFromHex, htrim, hdec, hb32]
  · simp [tryFromHex, trimStartMatches0x_cons0x, htrim, hdec, hb32]
  · simp [channelIdToString, henc]

/-- Witness for C6 at `h` = 64 `'0'` bytes. -/
theorem tryFromHex_roundtrip_witness :
    ∃ id, tryFromHex (List.replicate 64 48) = .ok id ∧
      tryFromHex (48 :: 120 :: List.replicate 64 48) = .ok id ∧
      id.length = 32 ∧
      channelIdToString id = 48 :: 120 :: (List.replicate 64 48).map toLowerB :=
  tryFromHex_roundtrip (List.replicate 64 48) (by decide) (by decide)

/-- C7 counterexample: the input `"0x0x"` followed by 64 hex digits DOES
decode successfully (to the 32 zero bytes here) — `trim_start_matches`
strips every leading `"0x"`, not at most one, so the claimed failure does
not occur. -/
theorem tryFromHex_two_markers_cex :
    tryFromHex (48 :: 120 :: 48 :: 120 :: List.replicate 64 48) =
      .ok (List.replicate 32 0) := by
  rfl

/-- C7 (amended): `try_from_hex` strips every leading `"0x"` occurrence (not
at most one), hex-decodes the remainder failing with invalid-argument on any
invalid hex character, and fails with invalid-argument unless the decoded
length is exactly 32 bytes; consequently an input bearing more than one
`"0x"` followed by 64 hex digits decodes successfully. -/
theorem tryFromHex_strip_decode_check :
    (∀ s, trimStartMatches0x (48 :: 120 :: s) = trimStartMatches0x s) ∧
    (∀ s, hexDecode (trimStartMatches0x s) = none →
      tryFromHex s = .error (DomainError.invalidArgument "invalid hex string")) ∧
    (∀ s bs, hexDecode (trimStartMatches0x s) = some bs → bs.length ≠ 32 →
      tryFromHex s = .error (DomainError.invalidArgument
        "The value of the id should have exactly 32 bytes")) ∧
    (∀ h, h.length = 64 → (∀ b ∈ h, (hexVal b).isSome) →
      (tryFromHex (48 :: 120 :: 48 :: 120 :: h)).isOk = true) := by
  refine ⟨trimStartMatches0x_cons0x, ?_, ?_, ?_⟩
  · intro s hdec
    simp [tryFromHex, hdec]
  · intro s bs hdec hne
    simp [tryFromHex, hdec, hne]
  · intro h hlen hhex
    obtain ⟨bs, hdec, hblen, henc⟩ := hexDecode_encode h hhex (by omega)
    have htrim := trimStartMatches0x_of_hex h hhex
    have hb32 : bs.length = 32 := by omega
    simp [tryFromHex, trimStartMatches0x_cons0x, htrim, hdec, hb32, Except.isOk,
      Except.toBool]

/-- Witness for C7 (amended): an odd-length non-hex input fails, a too-short
input fails, and a doubly `"0x"`-marked 64-digit input succeeds. -/
theorem tryFromHex_strip_decode_check_witness :
    tryFromHex [103] = .error (DomainError.invalidArgument "invalid hex string") ∧
    tryFromHex [48, 48] = .error (DomainError.invalidArgument
      "The value of the id should have exactly 32 bytes") ∧
    (tryFromHex (48 :: 120 :: 48 :: 120 :: List.replicate 64 48)).isOk = true :=
  ⟨tryFromHex_strip_decode_check.2.1 [103] (by decide),
   tryFromHex_strip_decode_check.2.2.1 [48, 48] [0] (by decide) (by decide),
   tryFromHex_strip_decode_check.2.2.2 (List.replicate 64 48) (by decide) (by decide)⟩

/-- C9 counterexample: with one record stored, `limit = 2^31` and
`page = 2^33 + 1` (both representable as u32/u64, both ≥ 1) make the skip
`(page-1)*limit = 2^64` wrap to 0 in the u64 machine arithmetic: the engine
returns the record, whereas skipping `(page-1)*limit` of the kept results as
the claim states would return the empty list. -/
theorem memoryRepository_list_overflow_cex :
    ((MemoryRepository.mk [7] (fun a b => a == b) : MemoryRepository Nat Nat).list
        (2 ^ 31) (2 ^ 33 + 1) (fun s => some s)).1 = [7] ∧
    ((([7] : List Nat).filterMap (fun s => some s)).drop
        ((2 ^ 33 + 1 - 1) * 2 ^ 31)).take (2 ^ 31) = [] := by
  constructor
  · rfl
  · rfl

/-- C9 (amended): provided the skip `(page-1)*limit` fits in the u64 range
(no machine overflow), `list(limit, page, filter)` applies the filter to each
stored record in insertion order, keeps a record iff the filter returns a
value, skips `(page-1)*limit` of the kept results, returns at most `limit`
of them, and leaves the store unchanged; with three records stored,
`list(1, 1)` returns the first and `list(1, 2)` returns the second. -/
theorem memoryRepository_list_paginates (S V : Type) (repo : MemoryRepository S V)
    (limit page : Nat) (filter : S → Option S)
    (hp : 1 ≤ page) (hpw : page < 2 ^ 64) (hl : 1 ≤ limit) (hlw : limit < 2 ^ 32)
    (hov : (page - 1) * limit < 2 ^ 64) :
    repo.list limit page filter =
      (((repo.records.filterMap filter).drop ((page - 1) * limit)).take limit,
        repo) ∧
    (∀ (x y z : S) (cmp2 : S → V → Bool),
      ((MemoryRepository.mk [x, y, z] cmp2).list 1 1 (fun s => some s)).1 = [x] ∧
      ((MemoryRepository.mk [x, y, z] cmp2).list 1 2 (fun s => some s)).1 = [y]) := by
  have hskip : skipResults page limit = (page - 1) * limit := by
    unfold skipResults u64Sub u64Wrap
    have h1 : (page + 2 ^ 64 - 1) % 2 ^ 64 = page - 1 := by omega
    rw [h1, Nat.mod_eq_of_lt hov]
  constructor
  · simp [MemoryRepository.list, hskip]
  · intro x y z cmp2
    exact ⟨rfl, rfl⟩

/-- Witness for C9 (amended) on the store `[10, 20, 30]` with `limit = 1`,
`page = 2`. -/
theorem memoryRepository_list_paginates_witness :
    (MemoryRepository.mk [10, 20, 30] (fun a b => a == b) :
        MemoryRepository Nat Nat).list 1 2 (fun s => some s) =
      (((([10, 20, 30] : List Nat).filterMap (fun s => some s)).drop
          ((2 - 1) * 1)).take 1,
        ⟨[10, 20, 30], fun a b => a == b⟩) :=
  (memoryRepository_list_paginates Nat Nat ⟨[10, 20, 30], fun a b => a == b⟩ 1 2
    (fun s => some s) (by decide) (by decide) (by decide) (by decide)
    (by decide)).1

/-- C10: the in-memory engine's `list` itself does not enforce `page >= 1`:
at `page = 0` the u64 subtraction `page - 1` underflows and wraps to
`2^64 - 1`, the skip becomes `2^64 - limit`, and the call proceeds (here
returning the empty list for any store of at most `2^32` records); the
`page >= 1` check lives only in `ChannelListParams::new`, which rejects
`page = 0` with invalid-argument. -/
theorem memoryRepository_list_page_zero (S V : Type) (repo : MemoryRepository S V)
    (limit : Nat) (filter : S → Option S)
    (hl : 1 ≤ limit) (hlw : limit ≤ 2 ^ 32) (hrec : repo.records.length ≤ 2 ^ 32) :
    u64Sub 0 1 = 2 ^ 64 - 1 ∧
    skipResults 0 limit = 2 ^ 64 - limit ∧
    (repo.list limit 0 filter).1 = [] ∧
    (∀ t l v, ChannelListParams.new t l 0 v =
      .error (DomainError.invalidArgument "Page should be >= 1")) := by
  have hsub : u64Sub 0 1 = 2 ^ 64 - 1 := by
    unfold u64Sub
    omega
  have hskip : skipResults 0 limit = 2 ^ 64 - limit := by
    unfold skipResults u64Sub u64Wrap
    omega
  refine ⟨hsub, hskip, ?_, fun t l v => rfl⟩
  have hle : (repo.records.filterMap filter).length ≤ 2 ^ 64 - limit := by
    have := List.length_filterMap_le filter repo.records
    omega
  simp [MemoryRepository.list, hskip]
  omega

/-- Witness for C10 on the store `[5]` with `limit = 1`. -/
theorem memoryRepository_list_page_zero_witness :
    u64Sub 0 1 = 2 ^ 64 - 1 ∧
    ((MemoryRepository.mk [5] (fun a b => a == b) : MemoryRepository Nat Nat).list 1 0
      (fun s => some s)).1 = [] :=
  ⟨(memoryRepository_list_page_zero Nat Nat ⟨[5], fun a b => a == b⟩ 1
      (fun s => some s) (by decide) (by decide) (by decide)).1,
   (memoryRepository_list_page_zero Nat Nat ⟨[5], fun a b => a == b⟩ 1
      (fun s => some s) (by decide) (by decide) (by decide)).2.2.1⟩
